import Mathlib

/-!
Verification of the AUJI backend ingestion pipeline.

Shallow embedding of the pure core of the repository:
* `app/utils/normalize.py` — employment-type normalization
* `app/services/scraper/mostaql.py` — Arabic relative-time parsing and
  title classification
* `app/services/scraper/vodafone.py` — English relative-time parsing,
  canonical apply-URL derivation, and the Vodafone-local bulk save
* `app/services/scraper/save.py` — identity resolution and upsert

The SQL store is modelled as an ordered `List Job` (SQLAlchemy `first()`
returns the first row in insertion order).  `db.py` builds every session
with `sessionmaker(autoflush=False)`, and both save paths open one session
per call, so during a run the `SELECT`s are evaluated against the column
values committed *before* the run: a pending `session.add` is invisible to
queries and an in-place `setattr` changes only the identity-mapped instance.
A session is therefore a list of `(committed, current)` row pairs — lookups
read the committed part, merges mutate the current part, inserts collect in
a pending list — and the final `session.commit()` publishes the current
values followed by the pending inserts.  Python `None` and missing
dictionary keys are both modelled as `none`; Python truthiness of strings is
`isFilled`.  Timestamps are integer seconds (`datetime.utcnow()` is a
parameter `now`); `datetime` arithmetic is bounded by `datetime.min/max`
and an out-of-range result is the `OverflowError` value of an `Except`.
-/

namespace Auji

/-- Python truthiness of an optional string: `None` and `""` are falsy. -/
def isFilled : Option String → Bool
  | none => false
  | some s => s != ""

/-- Python `\s` for the ASCII range (blank, tab, newline, CR, VT, FF). -/
def isSpaceChar (c : Char) : Bool :=
  c == ' ' || c == '\t' || c == '\n' || c == '\r' || c == '\x0b' || c == '\x0c'

/-- `str.strip()` on the character list. -/
def stripChars (l : List Char) : List Char :=
  ((l.dropWhile isSpaceChar).reverse.dropWhile isSpaceChar).reverse

/-- `str.strip()`. -/
def stripStr (s : String) : String := ⟨stripChars s.data⟩

/-- `str.lower()` (ASCII case folding; the Arabic letters that occur in the
    repository have no case). -/
def lowerStr (s : String) : String := ⟨s.data.map Char.toLower⟩

/-- `pat in text` — substring containment on character lists. -/
def containsSub (text pat : List Char) : Bool :=
  match text with
  | [] => pat.isEmpty
  | _ :: rest => pat.isPrefixOf text || containsSub rest pat

/-- First value for a key in an association list (Python `dict.get(k, d)`;
    the dictionary literals in the sources have pairwise distinct keys). -/
def lookupD (m : List (String × String)) (k d : String) : String :=
  (((m.find? (fun p => p.1 == k)).map Prod.snd)).getD d

/-! ## `app/utils/normalize.py` -/

/-- The alias table of `norm_employment_type`. -/
def empMapping : List (String × String) :=
  [ ("دوام كامل", "full_time"),
    ("دوام جزئي", "part_time"),
    ("تدريب", "internship"),
    ("عمل حر", "freelance"),
    ("full_time", "full_time"), ("full-time", "full_time"), ("full time", "full_time"),
    ("part_time", "part_time"), ("part-time", "part_time"), ("part time", "part_time"),
    ("intern", "internship"), ("internship", "internship"),
    ("freelance", "freelance"), ("contract", "freelance"), ("gig", "freelance") ]

/-- `norm_employment_type` from `app/utils/normalize.py`. -/
def norm_employment_type (v : Option String) : Option String :=
  match v with
  | none => none
  | some s =>
    if s = "" then none
    else
      let t := lowerStr (stripStr s)
      some (lookupD empMapping t t)

/-- The four canonical employment types. -/
def canonicalEmpTypes : List String := ["full_time", "part_time", "internship", "freelance"]

/-- C6: employment-type normalization is the identity on each of the four
    canonical values, and every alias in the bilingual table maps to exactly
    one canonical value (the keys are pairwise distinct and every value is
    canonical). -/
theorem C6_norm_employment_type_canonical :
    (canonicalEmpTypes.all
      (fun v => norm_employment_type (some v) == some v)) = true ∧
    (empMapping.map Prod.fst).Nodup ∧
    (empMapping.all (fun p => canonicalEmpTypes.contains p.2)) = true := by
  refine ⟨by decide, by decide, by decide⟩

/-! ## `app/services/scraper/mostaql.py` — relative-time parsing -/

/-- The `_AR_NUM` transliteration table (Arabic-Indic digit → ASCII digit). -/
def arNumPairs : List (Char × Char) :=
  [ ('٠', '0'), ('١', '1'), ('٢', '2'), ('٣', '3'), ('٤', '4'),
    ('٥', '5'), ('٦', '6'), ('٧', '7'), ('٨', '8'), ('٩', '9') ]

/-- `_to_ascii_digits`: the sequential `str.replace` calls are equivalent to a
    character-wise map because each source character is a single character and
    no replacement output is itself a source character. -/
def toAsciiDigits (l : List Char) : List Char :=
  l.map (fun c => (((arNumPairs.find? (fun p => p.1 == c)).map Prod.snd)).getD c)

/-- Numeric value of a run of ASCII digits (`int` on the captured group). -/
def digitsToNat (l : List Char) : Nat :=
  l.foldl (fun a c => a * 10 + (c.toNat - 48)) 0

/-- Leftmost match of the pattern `(\d+)\s*(?:u₁|u₂|...)`, returning the
    captured number.  Greedy `\d+` never backtracks usefully here because no
    unit word starts with a digit, so the maximal digit run is the group. -/
def matchNumUnit (units : List String) : List Char → Option Nat
  | [] => none
  | c :: rest =>
    if c.isDigit then
      let run := (c :: rest).takeWhile Char.isDigit
      let tail := ((c :: rest).dropWhile Char.isDigit).dropWhile isSpaceChar
      if units.any (fun u => u.data.isPrefixOf tail) then some (digitsToNat run)
      else matchNumUnit units rest
    else matchNumUnit units rest

/-! ## Bounded datetime arithmetic, and the two relative-time functions -/

/-- Leftmost match of `(\d+)` (used by `re.search(r"(\d+)", t)`). -/
def firstNum : List Char → Option Nat
  | [] => none
  | c :: rest =>
    if c.isDigit then some (digitsToNat ((c :: rest).takeWhile Char.isDigit))
    else firstNum rest

/-- Leap-year test of the Gregorian calendar (as in `datetime`). -/
def isLeapYear (y : Nat) : Bool :=
  y % 4 == 0 && (y % 100 != 0 || y % 400 == 0)

/-- Days in a month, as validated by the `datetime` constructor. -/
def daysInMonth (y m : Nat) : Nat :=
  if m == 2 then (if isLeapYear y then 29 else 28)
  else if m == 4 || m == 6 || m == 9 || m == 11 then 30
  else 31

/-- Days from 1970-01-01 to y-m-d (civil-calendar algorithm), so that a
    midnight `datetime` compares as `days * 86400` seconds. -/
def daysFromCivil (y m d : Nat) : Int :=
  let yAdj : Int := (y : Int) - (if m <= 2 then 1 else 0)
  let era : Int := (if yAdj >= 0 then yAdj else yAdj - 399) / 400
  let yoe : Int := yAdj - era * 400
  let mp : Int := ((m : Int) + 9) % 12
  let doy : Int := (153 * mp + 2) / 5 + (d : Int) - 1
  let doe : Int := yoe * 365 + yoe / 4 - yoe / 100 + doy
  era * 146097 + doe - 719468

/-- `datetime.min` (0001-01-01 00:00:00) in seconds. -/
def datetimeMinTs : Int := daysFromCivil 1 1 1 * 86400

/-- `datetime.max` (9999-12-31 23:59:59, microseconds dropped) in seconds. -/
def datetimeMaxTs : Int := daysFromCivil 9999 12 31 * 86400 + 86399

/-- `datetime - timedelta` in seconds: Python raises `OverflowError` when
    the result leaves the `datetime.min … datetime.max` range (a `timedelta`
    too large for its own constructor raises the same `OverflowError`);
    the error is the `.error` value. -/
def dtSub (t delta : Int) : Except Unit Int :=
  if datetimeMinTs ≤ t - delta ∧ t - delta ≤ datetimeMaxTs then .ok (t - delta)
  else .error ()

/-- `parse_ar_posted` from `app/services/scraper/mostaql.py`.  `now` stands
    for `datetime.utcnow()` in seconds; the result is a timestamp option
    (`None` for falsy input).  The function body has no `try`, so the
    `OverflowError` of `now - timedelta(...)` propagates to the caller: it
    is the `.error` outcome. -/
def parse_ar_posted (text : Option String) (now : Int) :
    Except Unit (Option Int) :=
  match text with
  | none => .ok none
  | some s =>
    if s = "" then .ok none
    else
      let t := toAsciiDigits (stripChars s.data)
      match matchNumUnit ["دقيقة", "دقائق"] t with
      | some n => (dtSub now ((n : Int) * 60)).map some
      | none =>
        match matchNumUnit ["ساعة", "ساعات"] t with
        | some n => (dtSub now ((n : Int) * 3600)).map some
        | none =>
          match matchNumUnit ["يوم", "أيام"] t with
          | some n => (dtSub now ((n : Int) * 86400)).map some
          | none =>
            if containsSub t "أسبوع".data then (dtSub now (7 * 86400)).map some
            else .ok (some now)

/-- `datetime.strptime(t, "%Y-%m-%d")`: exactly four year digits, one or two
    month and day digits, nothing left over, and ranges validated by the
    `datetime` constructor.  Returns the timestamp in seconds. -/
def parseIsoDate (l : List Char) : Option Int :=
  let ys := l.takeWhile Char.isDigit
  let r1 := l.dropWhile Char.isDigit
  if ys.length == 4 then
    match r1 with
    | '-' :: r2 =>
      let ms := r2.takeWhile Char.isDigit
      let r3 := r2.dropWhile Char.isDigit
      if ms.length == 1 || ms.length == 2 then
        match r3 with
        | '-' :: r4 =>
          let ds := r4.takeWhile Char.isDigit
          let r5 := r4.dropWhile Char.isDigit
          if (ds.length == 1 || ds.length == 2) && r5.isEmpty then
            let y := digitsToNat ys
            let m := digitsToNat ms
            let d := digitsToNat ds
            if 1 <= y && 1 <= m && m <= 12 && 1 <= d && d <= daysInMonth y m then
              some (daysFromCivil y m d * 86400)
            else none
          else none
        | _ => none
      else none
    | _ => none
  else none

/-- `OverflowError` inside `parse_posted_at` is caught by its `except`,
    which returns `now`. -/
def dtSubOrNow (now delta : Int) : Int :=
  match dtSub now delta with
  | .ok v => v
  | .error _ => now

/-- `parse_posted_at` from `app/services/scraper/vodafone.py`.  The whole
    body sits in a `try/except` returning `now`, so every exception path
    (missing digits, datetime overflow, failed `strptime`) is the value
    `now`. -/
def parse_posted_at (text : Option String) (now : Int) : Int :=
  match text with
  | none => now
  | some s =>
    if s = "" then now
    else
      let t := (lowerStr (stripStr s)).data
      if containsSub t "day ago".data then dtSubOrNow now 86400
      else if containsSub t "days ago".data then
        match firstNum t with
        | some n => dtSubOrNow now ((n : Int) * 86400)
        | none => now
      else if containsSub t "hour ago".data then dtSubOrNow now 3600
      else if containsSub t "hours ago".data then
        match firstNum t with
        | some n => dtSubOrNow now ((n : Int) * 3600)
        | none => now
      else if containsSub t "minute ago".data then dtSubOrNow now 60
      else if containsSub t "minutes ago".data then
        match firstNum t with
        | some n => dtSubOrNow now ((n : Int) * 60)
        | none => now
      else
        match parseIsoDate t with
        | some ts => ts
        | none => now

/-- C7 counterexample: the Arabic parser is *not* exception-free — it has no
    `try/except`, so on `"منذ 800000 يوم"` at a 2023 clock the days pattern
    matches and `now - timedelta(days=800000)` falls below `datetime.min`,
    raising `OverflowError` out of `parse_ar_posted`. -/
theorem C7_counterexample :
    parse_ar_posted (some "منذ 800000 يوم") 1700000000 = .error () := rfl

/-- C7 (amended): while `now` is far enough from the `datetime` range ends
    (as `utcnow()` always is), the Arabic relative-time parser transliterates
    Arabic-Indic digits and matches minutes before hours before days (the
    mixed input yields the minutes reading), `"منذ 3 ساعات"` yields
    `now − 3` hours, the week token without digits yields `now − 7` days,
    unmatched non-empty text yields `now`, and empty or absent input yields
    `none`, while the English parser yields `now` on absent input; but the
    Arabic parser is not raise-free: a parsed duration pushing the result
    outside `datetime`'s range propagates an `OverflowError` (the English
    parser catches every exception and degrades to `now`). -/
theorem C7_parse_ar_posted_behavior (now : Int)
    (hmin : datetimeMinTs ≤ now - 604800) (hmax : now ≤ datetimeMaxTs) :
    parse_ar_posted none now = .ok none ∧
    parse_ar_posted (some "") now = .ok none ∧
    parse_ar_posted (some "منذ 3 ساعات") now = .ok (some (now - 10800)) ∧
    parse_ar_posted (some "منذ ٥ ساعات و٢ دقيقة") now = .ok (some (now - 120)) ∧
    parse_ar_posted (some "منذ أسبوع") now = .ok (some (now - 604800)) ∧
    parse_ar_posted (some "نص غير مفهوم") now = .ok (some now) ∧
    parse_posted_at none now = now := by
  have e1 : datetimeMinTs = -62135596800 := by decide
  have e2 : datetimeMaxTs = 253402300799 := by decide
  rw [e1] at hmin
  rw [e2] at hmax
  have hsub : ∀ d : Int, 0 ≤ d → d ≤ 604800 → dtSub now d = .ok (now - d) := by
    intro d h0 h1
    have hc : datetimeMinTs ≤ now - d ∧ now - d ≤ datetimeMaxTs := by
      rw [e1, e2]
      omega
    unfold dtSub
    rw [if_pos hc]
  refine ⟨rfl, rfl, ?_, ?_, ?_, rfl, rfl⟩
  · have e : parse_ar_posted (some "منذ 3 ساعات") now =
        (dtSub now (((3 : Nat) : Int) * 3600)).map some := rfl
    rw [e, show (((3 : Nat) : Int) * 3600) = 10800 by decide,
      hsub 10800 (by decide) (by decide)]
    rfl
  · have e : parse_ar_posted (some "منذ ٥ ساعات و٢ دقيقة") now =
        (dtSub now (((2 : Nat) : Int) * 60)).map some := rfl
    rw [e, show (((2 : Nat) : Int) * 60) = 120 by decide,
      hsub 120 (by decide) (by decide)]
    rfl
  · have e : parse_ar_posted (some "منذ أسبوع") now =
        (dtSub now (7 * 86400)).map some := rfl
    rw [e, show ((7 : Int) * 86400) = 604800 by decide,
      hsub 604800 (by decide) (by decide)]
    rfl

theorem C7_parse_ar_posted_behavior_witness :
    parse_ar_posted (some "منذ 3 ساعات") 1700000000 = .ok (some 1699989200) ∧
    parse_ar_posted none 1700000000 = .ok none := by
  have h := C7_parse_ar_posted_behavior 1700000000 (by decide) (by decide)
  refine ⟨?_, h.1⟩
  rw [h.2.2.1]
  rfl

/-! ## `app/services/scraper/mostaql.py` — title classification -/

/-- `ML_KW`. -/
def ML_KW : List String :=
  ["machine learning", "deep learning", "pytorch", "tensorflow", "ml", "ai",
   "تعلم آلي", "ذكاء اصطناعي", "nlp", "computer vision", "رؤية حاسوبية"]

/-- `DA_KW`. -/
def DA_KW : List String :=
  ["data analysis", "analyst", "power bi", "tableau", "excel", "sql", "etl",
   "dashboard", "تحليل بيانات", "محلل بيانات", "باور بي آي", "تابلو", "لوحات تحكم"]

/-- `MK_KW`. -/
def MK_KW : List String :=
  ["marketing", "تسويق", "social", "smm", "seo", "sem", "ads", "إعلانات",
   "brand", "branding", "content", "محتوى", "copy", "copywriting",
   "إدارة صفحات", "facebook", "instagram", "tiktok", "حملات", "campaign",
   "manager social", "digital"]

/-- `_contains_any`. -/
def containsAnyKw (text : String) (keywords : List String) : Bool :=
  let t := lowerStr text
  keywords.any (fun k => containsSub t.data k.data)

/-- `_classify_profile` from `app/services/scraper/mostaql.py`; the active
    profile set is modelled as a list queried by membership. -/
def classify_profile (title : String) (active_profiles : List String)
    (categories : String) : String :=
  let t := lowerStr title
  let act := active_profiles
  if categories = "marketing" then "Digital Marketing"
  else if categories = "development" then
    if containsAnyKw t ML_KW && act.contains "Machine Learning" then "Machine Learning"
    else if containsAnyKw t DA_KW && act.contains "Data Analysis" then "Data Analysis"
    else if act.contains "Machine Learning" && !act.contains "Data Analysis" then "Machine Learning"
    else if act.contains "Data Analysis" && !act.contains "Machine Learning" then "Data Analysis"
    else "Data Analysis"
  else
    if containsAnyKw t MK_KW then "Digital Marketing"
    else if containsAnyKw t ML_KW && act.contains "Machine Learning" then "Machine Learning"
    else if containsAnyKw t DA_KW && act.contains "Data Analysis" then "Data Analysis"
    else if act.contains "Digital Marketing" then "Digital Marketing"
    else if act.contains "Machine Learning" && !act.contains "Data Analysis" then "Machine Learning"
    else if act.contains "Data Analysis" then "Data Analysis"
    else "Digital Marketing"

/-- C8: classifying the title "Senior Data Analyst needed, Power BI/SQL" in
    the `development` source context with active set
    {Machine Learning, Data Analysis} returns "Data Analysis": the
    data-analysis keyword match wins over the ambiguity fallback. -/
theorem C8_classify_profile_keyword_wins :
    classify_profile "Senior Data Analyst needed, Power BI/SQL"
      ["Machine Learning", "Data Analysis"] "development" = "Data Analysis" := by
  decide

/-! ## Data model (`app/models.py` `Job` and the candidate dictionaries)

A candidate is the dictionary produced by an extractor; `none` stands for a
missing key or an explicit `None`.  A `Job` row carries the columns of
`app/models.py`; `description` and `employment_type` are not columns of the
model, but the merge paths `setattr` them on loaded instances, so they are
kept as optional in-memory attributes that a fresh constructor leaves unset. -/

structure Candidate where
  title : Option String := none
  company : Option String := none
  location : Option String := none
  description : Option String := none
  detail_url : Option String := none
  apply_url : Option String := none
  url : Option String := none
  source : Option String := none
  category : Option String := none
  employment_type : Option String := none
  posted_at : Option Int := none
deriving DecidableEq, Repr

structure Job where
  title : Option String := none
  company : String := "Vodafone"
  location : Option String := none
  url : Option String := none
  detail_url : Option String := none
  apply_url : Option String := none
  category : Option String := none
  source : String := "vodafone"
  posted_at : Option Int := none
  created_at : Int
  updated_at : Int
  description : Option String := none
  employment_type : Option String := none
deriving DecidableEq, Repr

/-- `Job(**raw)` at time `now`: candidate keys that are `Job` model fields
    populate the row, the column defaults of `app/models.py` fill the rest,
    and `created_at`/`updated_at` come from their `default_factory`
    (`datetime.utcnow`).  `description`/`employment_type` are not model
    columns (`_filter_job_dict` drops them in the Vodafone path), so a fresh
    row leaves them unset. -/
def jobOfCandidate (c : Candidate) (now : Int) : Job :=
  { title := c.title
    company := c.company.getD "Vodafone"
    location := c.location
    url := c.url
    detail_url := c.detail_url
    apply_url := c.apply_url
    category := c.category
    source := c.source.getD "vodafone"
    posted_at := c.posted_at
    created_at := now
    updated_at := now
    description := none
    employment_type := none }

/-- `if val not in (None, ""): setattr(...)` for an optional column. -/
def setIfFilled (newVal oldVal : Option String) : Option String :=
  if isFilled newVal then newVal else oldVal

/-- The same for a non-nullable string column. -/
def setStrIfFilled (newVal : Option String) (oldVal : String) : String :=
  match newVal with
  | some s => if s = "" then oldVal else s
  | none => oldVal

/-! ## `app/services/scraper/save.py` -/

/-- The `same source (if available)` scoping of `_find_existing_job`: the
    `where(Job.source == source)` clause is added only when the candidate's
    `source` is truthy. -/
def srcOk (c : Candidate) (j : Job) : Bool :=
  match c.source with
  | none => true
  | some s => if s = "" then true else j.source == s

/-- Row predicate of the `detail_url` lookup. -/
def matchDetail (c : Candidate) (j : Job) : Bool :=
  j.detail_url == c.detail_url && srcOk c j

/-- Row predicate of the `apply_url` lookup. -/
def matchApply (c : Candidate) (j : Job) : Bool :=
  j.apply_url == c.apply_url && srcOk c j

/-- Row predicate of the legacy `url` lookup. -/
def matchUrl (c : Candidate) (j : Job) : Bool :=
  j.url == c.url && srcOk c j

/-- `_find_existing_job`: `detail_url`, then `apply_url`, then legacy `url`,
    each lookup attempted only when the candidate field is truthy, returning
    the first matching row. -/
def find_existing_job (store : List Job) (item : Candidate) : Option Job :=
  match (if isFilled item.detail_url then store.find? (matchDetail item) else none) with
  | some j => some j
  | none =>
    match (if isFilled item.apply_url then store.find? (matchApply item) else none) with
    | some j => some j
    | none =>
      if isFilled item.url then store.find? (matchUrl item) else none

/-- `_update_job_fields`: overwrite exactly the updatable fields, and each
    only when the candidate value is neither `None` nor `""` (a `posted_at`
    datetime is never `""`, so `isSome` decides it). -/
def update_job_fields (dest : Job) (src : Candidate) : Job :=
  { dest with
    title := setIfFilled src.title dest.title
    company := setStrIfFilled src.company dest.company
    location := setIfFilled src.location dest.location
    description := setIfFilled src.description dest.description
    detail_url := setIfFilled src.detail_url dest.detail_url
    apply_url := setIfFilled src.apply_url dest.apply_url
    url := setIfFilled src.url dest.url
    source := setStrIfFilled src.source dest.source
    category := setIfFilled src.category dest.category
    posted_at := match src.posted_at with | some t => some t | none => dest.posted_at }

/-- A session row is a pair: the column values committed before the run
    (what the `autoflush=False` `SELECT`s evaluate `WHERE` against, first
    component) and the current in-memory state of the identity-mapped
    instance (what `setattr` mutates and the final `commit` writes, second
    component).

    Find the first row whose *committed* part satisfies `p` and apply `f` to
    its *current* part (in-place `setattr` on the instance `first()`
    returned); `none` when no committed row matches. -/
def updateFirstPair (p : Job → Bool) (f : Job → Job) :
    List (Job × Job) → Option (List (Job × Job))
  | [] => none
  | r :: rest =>
    if p r.1 then some ((r.1, f r.2) :: rest)
    else
      match updateFirstPair p f rest with
      | some st => some (r :: st)
      | none => none

/-- `raw["source"] = "vodafone"` when the candidate's source is falsy. -/
def normSource (raw : Candidate) : Candidate :=
  if isFilled raw.source then raw else { raw with source := some "vodafone" }

/-- The identity guard of `save_jobs`: at least one of
    `detail_url`/`apply_url`/`url` is truthy. -/
def hasIdentity (c : Candidate) : Bool :=
  isFilled c.detail_url || isFilled c.apply_url || isFilled c.url

/-- `exists = _find_existing_job(session, raw)` followed by
    `_update_job_fields(exists, raw)`: the first row whose committed values
    match the prioritized lookups gets its current state merged; `none` when
    no lookup matched. -/
def upsert_candidate (rows : List (Job × Job)) (c : Candidate) :
    Option (List (Job × Job)) :=
  match (if isFilled c.detail_url then
          updateFirstPair (matchDetail c) (fun j => update_job_fields j c) rows
         else none) with
  | some st => some st
  | none =>
    match (if isFilled c.apply_url then
            updateFirstPair (matchApply c) (fun j => update_job_fields j c) rows
           else none) with
    | some st => some st
    | none =>
      if isFilled c.url then
        updateFirstPair (matchUrl c) (fun j => update_job_fields j c) rows
      else none

/-- One iteration of the `save_jobs` loop over
    `(rows, pending inserts, affected)`: an unmatched candidate is
    `session.add`ed (pending, invisible to later lookups of the run). -/
def save_jobs_step (now : Int) (σ : List (Job × Job) × List Job × Nat)
    (raw : Candidate) : List (Job × Job) × List Job × Nat :=
  let c := normSource raw
  if hasIdentity c then
    match upsert_candidate σ.1 c with
    | some st => (st, σ.2.1, σ.2.2 + 1)
    | none => (σ.1, σ.2.1 ++ [jobOfCandidate c now], σ.2.2 + 1)
  else σ

/-- The store the final `session.commit()` publishes: current row states
    followed by the pending inserts. -/
def sessionView (σ : List (Job × Job) × List Job × Nat) : List Job :=
  σ.1.map Prod.snd ++ σ.2.1

/-- `save_jobs(items, session)` on committed store `store` at time `now`,
    returning the committed store after `commit` and the `affected` counter.
    The session comes fresh from `get_session()` (`autoflush=False`), so the
    run's lookups see `store` and only `store`.  `save.py`'s `save_jobs_bulk`
    is this same function with such a fresh session. -/
def save_jobs (store : List Job) (items : List Candidate) (now : Int) :
    List Job × Nat :=
  let res := items.foldl (save_jobs_step now) (store.map (fun j => (j, j)), [], 0)
  (sessionView res, res.2.2)

/-! ## `app/services/scraper/vodafone.py` — `save_jobs_bulk` -/

/-- `apply_ = it.get("apply_url") or it.get("url")`. -/
def vodafoneApplyKey (it : Candidate) : Option String :=
  if isFilled it.apply_url then it.apply_url else it.url

/-- The title rule of the Vodafone merge: overwrite only a missing or
    placeholder title, and only with a non-empty non-placeholder one. -/
def vodafoneTitleMerge (oldTitle newTitle : Option String) : Option String :=
  match newTitle with
  | some nt =>
    if nt != "" && nt != "N/A" && (!isFilled oldTitle || oldTitle == some "N/A")
    then some nt else oldTitle
  | none => oldTitle

/-- The merge of the Vodafone `save_jobs_bulk`: the title rule, then the
    fixed field list overwritten by non-empty values. -/
def vodafone_update (dest : Job) (it : Candidate) : Job :=
  { dest with
    title := vodafoneTitleMerge dest.title it.title
    company := setStrIfFilled it.company dest.company
    location := setIfFilled it.location dest.location
    apply_url := setIfFilled it.apply_url dest.apply_url
    detail_url := setIfFilled it.detail_url dest.detail_url
    category := setIfFilled it.category dest.category
    source := setStrIfFilled it.source dest.source
    employment_type := setIfFilled it.employment_type dest.employment_type
    posted_at := match it.posted_at with | some t => some t | none => dest.posted_at
    description := setIfFilled it.description dest.description }

/-- The lookup-and-merge of the Vodafone `save_jobs_bulk`: committed rows
    matched by `detail_url`, then by `apply_url or url` against the
    `apply_url` column, then by `url`, with no source scoping; the found
    row's current state is merged. -/
def vodafone_upsert (rows : List (Job × Job)) (it : Candidate) :
    Option (List (Job × Job)) :=
  match (if isFilled it.detail_url then
          updateFirstPair (fun j => j.detail_url == it.detail_url)
            (fun j => vodafone_update j it) rows
         else none) with
  | some st => some st
  | none =>
    match (if isFilled (vodafoneApplyKey it) then
            updateFirstPair (fun j => j.apply_url == vodafoneApplyKey it)
              (fun j => vodafone_update j it) rows
           else none) with
    | some st => some st
    | none =>
      if isFilled it.url then
        updateFirstPair (fun j => j.url == it.url)
          (fun j => vodafone_update j it) rows
      else none

/-- One iteration of the Vodafone `save_jobs_bulk` loop: no identity guard —
    an unmatched item is always `session.add`ed — and `saved` incremented
    for every item. -/
def vodafone_step (now : Int) (σ : List (Job × Job) × List Job × Nat)
    (it : Candidate) : List (Job × Job) × List Job × Nat :=
  match vodafone_upsert σ.1 it with
  | some st => (st, σ.2.1, σ.2.2 + 1)
  | none => (σ.1, σ.2.1 ++ [jobOfCandidate it now], σ.2.2 + 1)

/-- `save_jobs_bulk(items)` of `app/services/scraper/vodafone.py`, on one
    fresh `autoflush=False` session committed at the end. -/
def vodafone_save_jobs_bulk (store : List Job) (items : List Candidate)
    (now : Int) : List Job × Nat :=
  let res := items.foldl (vodafone_step now) (store.map (fun j => (j, j)), [], 0)
  (sessionView res, res.2.2)

/-! ## Basic lemmas about the store operations -/

theorem updateFirstPair_length {p : Job → Bool} {f : Job → Job} :
    ∀ {l st : List (Job × Job)}, updateFirstPair p f l = some st →
      st.length = l.length := by
  intro l
  induction l with
  | nil => intro st h; simp [updateFirstPair] at h
  | cons a rest ih =>
    intro st h
    by_cases hpa : p a.1 = true
    · simp [updateFirstPair, hpa] at h
      subst h; simp
    · simp [updateFirstPair, hpa] at h
      cases h2 : updateFirstPair p f rest with
      | none => rw [h2] at h; simp at h
      | some st2 =>
        rw [h2] at h
        simp at h
        subst h
        simp [ih h2]

theorem updateFirstPair_isSome_of_mem {p : Job → Bool} {f : Job → Job} :
    ∀ {l : List (Job × Job)} {r : Job × Job}, r ∈ l → p r.1 = true →
      ∃ st, updateFirstPair p f l = some st := by
  intro l
  induction l with
  | nil => intro r hm; cases hm
  | cons a rest ih =>
    intro r hm hp
    by_cases hpa : p a.1 = true
    · exact ⟨(a.1, f a.2) :: rest, by simp [updateFirstPair, hpa]⟩
    · rcases List.mem_cons.mp hm with h | h
      · subst h; exact absurd hp hpa
      · obtain ⟨st, hst⟩ := ih h hp
        exact ⟨a :: st, by simp [updateFirstPair, hpa, hst]⟩

theorem updateFirstPair_some_mem {p : Job → Bool} {f : Job → Job} :
    ∀ {l st : List (Job × Job)}, updateFirstPair p f l = some st →
      ∃ r, r ∈ l ∧ p r.1 = true ∧ (r.1, f r.2) ∈ st := by
  intro l
  induction l with
  | nil => intro st h; simp [updateFirstPair] at h
  | cons a rest ih =>
    intro st h
    by_cases hpa : p a.1 = true
    · simp [updateFirstPair, hpa] at h
      exact ⟨a, List.mem_cons_self a rest, hpa,
        by rw [← h]; exact List.mem_cons_self _ _⟩
    · simp [updateFirstPair, hpa] at h
      cases h2 : updateFirstPair p f rest with
      | none => rw [h2] at h; simp at h
      | some st2 =>
        rw [h2] at h
        simp at h
        obtain ⟨r, hr, hpr, hfr⟩ := ih h2
        exact ⟨r, List.mem_cons_of_mem a hr, hpr,
          by rw [← h]; exact List.mem_cons_of_mem a hfr⟩

/-- Loading a store into a fresh session and committing untouched gives the
    store back. -/
theorem map_pair_snd (l : List Job) :
    (l.map (fun j => (j, j))).map Prod.snd = l := by
  induction l with
  | nil => rfl
  | cons a t ih => simp [ih]

theorem guarded_eq_some {α : Type} {b : Bool} {x : Option α} {v : α}
    (h : (if b = true then x else none) = some v) : b = true ∧ x = some v := by
  cases b with
  | false => simp at h
  | true => exact ⟨rfl, by simpa using h⟩

/-- Fields other than `source` are untouched by the source defaulting. -/
theorem normSource_ids (c : Candidate) :
    (normSource c).detail_url = c.detail_url ∧
    (normSource c).apply_url = c.apply_url ∧
    (normSource c).url = c.url := by
  unfold normSource
  split <;> exact ⟨rfl, rfl, rfl⟩

/-- After source defaulting, the candidate's source is a non-empty string. -/
theorem normSource_src (c : Candidate) :
    ∃ s, (normSource c).source = some s ∧ s ≠ "" := by
  unfold normSource
  by_cases h : isFilled c.source = true
  · rw [if_pos h]
    cases hc : c.source with
    | none => rw [hc] at h; simp [isFilled] at h
    | some s =>
      rw [hc] at h
      simp [isFilled] at h
      exact ⟨s, rfl, h⟩
  · rw [if_neg h]
    exact ⟨"vodafone", rfl, by decide⟩

/-! ## C3: identity-less candidates -/

/-- A candidate with no identity field at all. -/
def cNoId : Candidate := { title := some "Orphan" }

/-- C3 counterexample: the Vodafone `save_jobs_bulk` does **not** skip a
    candidate lacking all three identity fields — it inserts a fresh record
    and counts it, so the claim fails on that ingestion path. -/
theorem C3_counterexample :
    (vodafone_save_jobs_bulk [] [cNoId] 0).1.length ≠ 0 ∧
    (vodafone_save_jobs_bulk [] [cNoId] 0).2 ≠ 0 := by
  decide

/-- C3 (amended): `save_jobs` of `save.py` skips a candidate whose
    `detail_url`, `apply_url` and legacy `url` are all missing or empty: the
    store is unchanged and the affected counter stays zero.  (The Vodafone
    `save_jobs_bulk`, by contrast, inserts such candidates.) -/
theorem C3_save_jobs_skips_identityless (store : List Job) (c : Candidate)
    (now : Int)
    (hd : isFilled c.detail_url = false)
    (ha : isFilled c.apply_url = false)
    (hu : isFilled c.url = false) :
    save_jobs store [c] now = (store, 0) := by
  have hid : hasIdentity (normSource c) = false := by
    obtain ⟨h1, h2, h3⟩ := normSource_ids c
    simp [hasIdentity, h1, h2, h3, hd, ha, hu]
  have hv : sessionView (store.map (fun j => (j, j)), [], 0) = store := by
    show (store.map (fun j => (j, j))).map Prod.snd ++ [] = store
    rw [List.append_nil, map_pair_snd]
  simp [save_jobs, save_jobs_step, hid, hv]

theorem C3_save_jobs_skips_identityless_witness :
    save_jobs [] [{ title := some "Orphan", apply_url := some "" }] 0 = ([], 0) :=
  C3_save_jobs_skips_identityless [] _ 0 (by decide) (by decide) (by decide)

/-! ## C4: non-destructive merge -/

theorem setIfFilled_of_empty {v o : Option String} (h : isFilled v = false) :
    setIfFilled v o = o := by
  simp [setIfFilled, h]

theorem setStrIfFilled_of_empty {v : Option String} {o : String}
    (h : isFilled v = false) : setStrIfFilled v o = o := by
  cases v with
  | none => rfl
  | some s =>
    simp [isFilled] at h
    simp [setStrIfFilled, h]

theorem vodafoneTitleMerge_of_empty {o v : Option String}
    (h : isFilled v = false) : vodafoneTitleMerge o v = o := by
  cases v with
  | none => rfl
  | some s =>
    simp [isFilled] at h
    simp [vodafoneTitleMerge, h]

/-- C4: no updatable field is ever overwritten with an empty or null
    candidate value, in either merge path.  In particular an existing
    non-empty `location` survives a candidate with an empty `location`. -/
theorem C4_merge_nondestructive (r : Job) (c : Candidate) :
    (isFilled c.location = false →
      (update_job_fields r c).location = r.location ∧
      (vodafone_update r c).location = r.location) ∧
    (isFilled c.title = false →
      (update_job_fields r c).title = r.title ∧
      (vodafone_update r c).title = r.title) ∧
    (isFilled c.company = false →
      (update_job_fields r c).company = r.company ∧
      (vodafone_update r c).company = r.company) ∧
    (isFilled c.description = false →
      (update_job_fields r c).description = r.description ∧
      (vodafone_update r c).description = r.description) ∧
    (isFilled c.detail_url = false →
      (update_job_fields r c).detail_url = r.detail_url ∧
      (vodafone_update r c).detail_url = r.detail_url) ∧
    (isFilled c.apply_url = false →
      (update_job_fields r c).apply_url = r.apply_url ∧
      (vodafone_update r c).apply_url = r.apply_url) ∧
    (isFilled c.url = false → (update_job_fields r c).url = r.url) ∧
    (isFilled c.source = false →
      (update_job_fields r c).source = r.source ∧
      (vodafone_update r c).source = r.source) ∧
    (isFilled c.category = false →
      (update_job_fields r c).category = r.category ∧
      (vodafone_update r c).category = r.category) ∧
    (isFilled c.employment_type = false →
      (vodafone_update r c).employment_type = r.employment_type) ∧
    (c.posted_at = none →
      (update_job_fields r c).posted_at = r.posted_at ∧
      (vodafone_update r c).posted_at = r.posted_at) := by
  refine ⟨?_, ?_, ?_, ?_, ?_, ?_, ?_, ?_, ?_, ?_, ?_⟩ <;> intro h <;>
    simp [update_job_fields, vodafone_update, setIfFilled_of_empty,
      setStrIfFilled_of_empty, vodafoneTitleMerge_of_empty, h]

/-- An existing record with a non-empty location. -/
def rLoc : Job :=
  { title := some "Data Engineer", location := some "Cairo",
    created_at := 0, updated_at := 0 }

/-- A matching candidate carrying an empty-string location. -/
def cEmptyLoc : Candidate :=
  { title := some "Data Engineer", location := some "",
    detail_url := some "https://jobs.vodafone.com/careers/job/1" }

theorem C4_merge_nondestructive_witness :
    (update_job_fields rLoc cEmptyLoc).location = rLoc.location ∧
    (vodafone_update rLoc cEmptyLoc).location = rLoc.location :=
  (C4_merge_nondestructive rLoc cEmptyLoc).1 (by decide)

/-! ## C5: timestamps across a merge -/

/-- The stored record for the C5 scenario: created at 3, last touched at 5. -/
def r5 : Job :=
  { title := some "ML Engineer",
    detail_url := some "https://jobs.vodafone.com/careers/job/7",
    created_at := 3, updated_at := 5 }

/-- A candidate matching `r5` by `detail_url`, carrying a new location. -/
def c5 : Candidate :=
  { title := some "ML Engineer",
    detail_url := some "https://jobs.vodafone.com/careers/job/7",
    location := some "Giza" }

/-- C5 counterexample: running the upsert at time 6 over a record whose
    `updated_at` is 5 merges the candidate but leaves `updated_at` at 5 — it
    is *not* set on the merge (there is no assignment to it and no
    `onupdate` hook on the column). -/
theorem C5_counterexample :
    (save_jobs [r5] [c5] 6).1.map Job.updated_at = [5] ∧
    ¬ ((save_jobs [r5] [c5] 6).1.map Job.updated_at = [6]) := by
  decide

/-- C5 (amended): a merge leaves `created_at` unchanged, and it also leaves
    `updated_at` unchanged — both timestamps are set only at record
    creation, in either merge path. -/
theorem C5_merge_preserves_timestamps (r : Job) (c : Candidate) :
    (update_job_fields r c).created_at = r.created_at ∧
    (update_job_fields r c).updated_at = r.updated_at ∧
    (vodafone_update r c).created_at = r.created_at ∧
    (vodafone_update r c).updated_at = r.updated_at :=
  ⟨rfl, rfl, rfl, rfl⟩

/-! ## C10: the Vodafone title rule -/

/-- C10: in the Vodafone merge, a meaningful existing title is never
    replaced; the candidate's title lands only when it is non-empty, not the
    placeholder, and the existing title is missing, empty or the
    placeholder; every other updatable field (location shown here) is
    overwritten by any non-empty candidate value. -/
theorem C10_vodafone_title_rule (r : Job) (c : Candidate) :
    (∀ t0, r.title = some t0 → t0 ≠ "" → t0 ≠ "N/A" →
      (vodafone_update r c).title = r.title) ∧
    (∀ nt, c.title = some nt → nt ≠ "" → nt ≠ "N/A" →
      (r.title = none ∨ r.title = some "" ∨ r.title = some "N/A") →
      (vodafone_update r c).title = some nt) ∧
    (∀ lv, c.location = some lv → lv ≠ "" →
      (vodafone_update r c).location = some lv) := by
  refine ⟨?_, ?_, ?_⟩
  · intro t0 ht0 hne hna
    cases hc : c.title with
    | none => simp [vodafone_update, vodafoneTitleMerge, hc]
    | some nt =>
      simp [vodafone_update, vodafoneTitleMerge, hc, ht0, isFilled, hne, hna]
  · intro nt hnt hne hna hold
    rcases hold with h | h | h <;>
      simp [vodafone_update, vodafoneTitleMerge, hnt, h, isFilled, hne, hna]
  · intro lv hlv hne
    simp [vodafone_update, setIfFilled, hlv, isFilled, hne]

/-- A record with a meaningful title. -/
def rTitled : Job := { title := some "Engineer", created_at := 0, updated_at := 0 }

/-- A record with the placeholder title. -/
def rPlaceholder : Job := { title := some "N/A", created_at := 0, updated_at := 0 }

/-- A candidate with a different non-empty title. -/
def cTitled : Candidate := { title := some "Analyst" }

theorem C10_vodafone_title_rule_witness :
    (vodafone_update rTitled cTitled).title = rTitled.title ∧
    (vodafone_update rPlaceholder cTitled).title = some "Analyst" :=
  ⟨(C10_vodafone_title_rule rTitled cTitled).1 "Engineer" rfl (by decide) (by decide),
   (C10_vodafone_title_rule rPlaceholder cTitled).2.1 "Analyst" rfl (by decide)
     (by decide) (Or.inr (Or.inr rfl))⟩

/-! ## C2: detail_url wins over apply_url -/

theorem find?_some_of_mem {p : Job → Bool} :
    ∀ {l : List Job} {j : Job}, j ∈ l → p j = true →
      ∃ r, l.find? p = some r := by
  intro l
  induction l with
  | nil => intro j hm; cases hm
  | cons a rest ih =>
    intro j hm hp
    by_cases hpa : p a = true
    · exact ⟨a, by rw [List.find?_cons_of_pos _ hpa]⟩
    · rcases List.mem_cons.mp hm with h | h
      · subst h; exact absurd hp hpa
      · obtain ⟨r, hr⟩ := ih h hp
        exact ⟨r, by rw [List.find?_cons_of_neg _ (by simpa using hpa), hr]⟩

/-- C2: for a candidate carrying both a non-empty `detail_url = D` and a
    non-empty `apply_url`, if the store holds a record with
    `detail_url = D` (in the candidate's source scope, whatever its
    `apply_url`), then resolution returns a record matched on `detail_url`,
    and ingestion — both `save_jobs` and the Vodafone `save_jobs_bulk` —
    updates in place instead of inserting, leaving the record count
    unchanged. -/
theorem C2_detail_url_priority (store : List Job) (c : Candidate) (r : Job)
    (D : String) (now : Int)
    (hD : c.detail_url = some D) (hDne : D ≠ "")
    (_hA : isFilled c.apply_url = true)
    (hmem : r ∈ store) (hrD : r.detail_url = some D)
    (hsrc : srcOk (normSource c) r = true) :
    (∃ r2, find_existing_job store (normSource c) = some r2 ∧
        r2.detail_url = some D ∧ srcOk (normSource c) r2 = true) ∧
    (save_jobs store [c] now).1.length = store.length ∧
    (vodafone_save_jobs_bulk store [c] now).1.length = store.length := by
  obtain ⟨hid, _, _⟩ := normSource_ids c
  have hDn : (normSource c).detail_url = some D := by rw [hid, hD]
  have hfill : isFilled (normSource c).detail_url = true := by
    simp [hDn, isFilled, hDne]
  have hmatch : matchDetail (normSource c) r = true := by
    simp [matchDetail, hDn, hrD, hsrc]
  refine ⟨?_, ?_, ?_⟩
  · obtain ⟨r2, hr2⟩ := find?_some_of_mem hmem hmatch
    have hp := List.find?_some hr2
    simp only [matchDetail, Bool.and_eq_true] at hp
    refine ⟨r2, ?_, ?_, hp.2⟩
    · simp [find_existing_job, hfill, hr2]
    · have := hp.1
      rw [hDn] at this
      exact eq_of_beq this
  · have hpm : (r, r) ∈ store.map (fun j => (j, j)) :=
      List.mem_map_of_mem (fun j => (j, j)) hmem
    obtain ⟨st, hst⟩ :=
      updateFirstPair_isSome_of_mem
        (f := fun j => update_job_fields j (normSource c)) hpm hmatch
    have hup : upsert_candidate (store.map (fun j => (j, j))) (normSource c)
        = some st := by
      simp [upsert_candidate, hfill, hst]
    have hidy : hasIdentity (normSource c) = true := by
      simp [hasIdentity, hfill]
    simp [save_jobs, save_jobs_step, hidy, hup, sessionView,
      updateFirstPair_length hst]
  · have hfillc : isFilled c.detail_url = true := by simp [hD, isFilled, hDne]
    have hmatchv : (r.detail_url == c.detail_url) = true := by simp [hD, hrD]
    have hpm : (r, r) ∈ store.map (fun j => (j, j)) :=
      List.mem_map_of_mem (fun j => (j, j)) hmem
    obtain ⟨st, hst⟩ :=
      updateFirstPair_isSome_of_mem
        (p := fun j => j.detail_url == c.detail_url)
        (f := fun j => vodafone_update j c) hpm hmatchv
    have hup : vodafone_upsert (store.map (fun j => (j, j))) c = some st := by
      simp [vodafone_upsert, hfillc, hst]
    simp [vodafone_save_jobs_bulk, vodafone_step, hup, sessionView,
      updateFirstPair_length hst]

/-- The C2 store record: detail D1, a *different* apply url. -/
def rC2 : Job :=
  { title := some "Old",
    detail_url := some "https://jobs.vodafone.com/careers/job/11",
    apply_url := some "https://jobs.vodafone.com/careers/apply?pid=99&domain=vodafone.com",
    created_at := 0, updated_at := 0 }

/-- The C2 candidate: same detail url, its own apply url. -/
def cC2 : Candidate :=
  { title := some "New",
    detail_url := some "https://jobs.vodafone.com/careers/job/11",
    apply_url := some "https://jobs.vodafone.com/careers/apply?pid=11&domain=vodafone.com",
    source := some "vodafone" }

theorem C2_detail_url_priority_witness :
    (∃ r2, find_existing_job [rC2] (normSource cC2) = some r2 ∧
        r2.detail_url = some "https://jobs.vodafone.com/careers/job/11" ∧
        srcOk (normSource cC2) r2 = true) ∧
    (save_jobs [rC2] [cC2] 9).1.length = [rC2].length ∧
    (vodafone_save_jobs_bulk [rC2] [cC2] 9).1.length = [rC2].length :=
  C2_detail_url_priority [rC2] cC2 rC2 "https://jobs.vodafone.com/careers/job/11"
    9 rfl (by decide) (by decide) (by simp) rfl (by decide)

/-! ## C1: ingestion idempotence on record count -/

/-- A candidate can be matched again in a store: some identity lookup of
    `_find_existing_job` has a row to hit. -/
def selfMatch (c : Candidate) (store : List Job) : Prop :=
  (isFilled c.detail_url = true ∧ ∃ j ∈ store, matchDetail c j = true) ∨
  (isFilled c.apply_url = true ∧ ∃ j ∈ store, matchApply c j = true) ∨
  (isFilled c.url = true ∧ ∃ j ∈ store, matchUrl c j = true)

/-- The same notion against the committed parts of a session's rows. -/
def selfMatchRows (c : Candidate) (rows : List (Job × Job)) : Prop :=
  (isFilled c.detail_url = true ∧ ∃ r ∈ rows, matchDetail c r.1 = true) ∨
  (isFilled c.apply_url = true ∧ ∃ r ∈ rows, matchApply c r.1 = true) ∨
  (isFilled c.url = true ∧ ∃ r ∈ rows, matchUrl c r.1 = true)

/-- A fresh session over a store exposes exactly that store as committed
    rows. -/
theorem selfMatchRows_of_selfMatch {c : Candidate} {store : List Job}
    (h : selfMatch c store) :
    selfMatchRows c (store.map (fun j => (j, j))) := by
  rcases h with ⟨hf, j, hm, hp⟩ | ⟨hf, j, hm, hp⟩ | ⟨hf, j, hm, hp⟩
  · exact Or.inl ⟨hf, (j, j), List.mem_map_of_mem _ hm, hp⟩
  · exact Or.inr (Or.inl ⟨hf, (j, j), List.mem_map_of_mem _ hm, hp⟩)
  · exact Or.inr (Or.inr ⟨hf, (j, j), List.mem_map_of_mem _ hm, hp⟩)

theorem selfMatch_mono {c : Candidate} {s1 s2 : List Job}
    (hsub : ∀ j, j ∈ s1 → j ∈ s2) (h : selfMatch c s1) : selfMatch c s2 := by
  rcases h with ⟨hf, j, hm, hp⟩ | ⟨hf, j, hm, hp⟩ | ⟨hf, j, hm, hp⟩
  · exact Or.inl ⟨hf, j, hsub j hm, hp⟩
  · exact Or.inr (Or.inl ⟨hf, j, hsub j hm, hp⟩)
  · exact Or.inr (Or.inr ⟨hf, j, hsub j hm, hp⟩)

theorem upsert_length {rows : List (Job × Job)} {c : Candidate}
    {st : List (Job × Job)} (h : upsert_candidate rows c = some st) :
    st.length = rows.length := by
  unfold upsert_candidate at h
  split at h
  · next st1 heq =>
    obtain ⟨_, hupd⟩ := guarded_eq_some heq
    cases h
    exact updateFirstPair_length hupd
  · split at h
    · next st1 heq =>
      obtain ⟨_, hupd⟩ := guarded_eq_some heq
      cases h
      exact updateFirstPair_length hupd
    · obtain ⟨_, hupd⟩ := guarded_eq_some h
      exact updateFirstPair_length hupd

theorem upsert_none {rows : List (Job × Job)} {c : Candidate}
    (h : upsert_candidate rows c = none) : ¬ selfMatchRows c rows := by
  intro hs
  unfold upsert_candidate at h
  split at h
  · simp at h
  · next heq1 =>
    split at h
    · simp at h
    · next heq2 =>
      rcases hs with ⟨hf, r, hm, hp⟩ | ⟨hf, r, hm, hp⟩ | ⟨hf, r, hm, hp⟩
      · obtain ⟨st, hst⟩ :=
          updateFirstPair_isSome_of_mem
            (f := fun j => update_job_fields j c) hm hp
        rw [hf] at heq1
        simp [hst] at heq1
      · obtain ⟨st, hst⟩ :=
          updateFirstPair_isSome_of_mem
            (f := fun j => update_job_fields j c) hm hp
        rw [hf] at heq2
        simp [hst] at heq2
      · obtain ⟨st, hst⟩ :=
          updateFirstPair_isSome_of_mem
            (f := fun j => update_job_fields j c) hm hp
        rw [hf] at h
        simp [hst] at h

/-- A merged row keeps matching the candidate on every filled identity
    field: the merge writes the candidate's identity values and its
    (non-empty) source onto the row. -/
theorem update_self_matches (c : Candidate) (j : Job)
    (hs : ∃ s, c.source = some s ∧ s ≠ "") :
    (isFilled c.detail_url = true → matchDetail c (update_job_fields j c) = true) ∧
    (isFilled c.apply_url = true → matchApply c (update_job_fields j c) = true) ∧
    (isFilled c.url = true → matchUrl c (update_job_fields j c) = true) := by
  obtain ⟨s, hsrc, hne⟩ := hs
  have hsf : (update_job_fields j c).source = s := by
    simp [update_job_fields, setStrIfFilled, hsrc, hne]
  have hsOk : srcOk c (update_job_fields j c) = true := by
    simp [srcOk, hsrc, hne, hsf]
  refine ⟨?_, ?_, ?_⟩ <;> intro hf
  · have hd : (update_job_fields j c).detail_url = c.detail_url := by
      simp [update_job_fields, setIfFilled, hf]
    simp [matchDetail, hd, hsOk]
  · have ha : (update_job_fields j c).apply_url = c.apply_url := by
      simp [update_job_fields, setIfFilled, hf]
    simp [matchApply, ha, hsOk]
  · have hu : (update_job_fields j c).url = c.url := by
      simp [update_job_fields, setIfFilled, hf]
    simp [matchUrl, hu, hsOk]

/-- A freshly inserted row matches the candidate it was built from on every
    filled identity field. -/
theorem insert_self_matches (c : Candidate) (now : Int)
    (hs : ∃ s, c.source = some s ∧ s ≠ "") :
    (isFilled c.detail_url = true → matchDetail c (jobOfCandidate c now) = true) ∧
    (isFilled c.apply_url = true → matchApply c (jobOfCandidate c now) = true) ∧
    (isFilled c.url = true → matchUrl c (jobOfCandidate c now) = true) := by
  obtain ⟨s, hsrc, hne⟩ := hs
  have hsf : (jobOfCandidate c now).source = s := by
    simp [jobOfCandidate, hsrc]
  have hsOk : srcOk c (jobOfCandidate c now) = true := by
    simp [srcOk, hsrc, hne, hsf]
  have hd : (jobOfCandidate c now).detail_url = c.detail_url := rfl
  have ha : (jobOfCandidate c now).apply_url = c.apply_url := rfl
  have hu : (jobOfCandidate c now).url = c.url := rfl
  refine ⟨?_, ?_, ?_⟩ <;> intro _
  · simp [matchDetail, hd, hsOk]
  · simp [matchApply, ha, hsOk]
  · simp [matchUrl, hu, hsOk]

theorem upsert_some_selfMatch {rows : List (Job × Job)} {c : Candidate}
    {st : List (Job × Job)} (hs : ∃ s, c.source = some s ∧ s ≠ "")
    (h : upsert_candidate rows c = some st) :
    selfMatch c (st.map Prod.snd) := by
  unfold upsert_candidate at h
  split at h
  · next st1 heq =>
    obtain ⟨hf, hupd⟩ := guarded_eq_some heq
    obtain ⟨r, _, _, hfr⟩ := updateFirstPair_some_mem hupd
    cases h
    exact Or.inl ⟨hf, update_job_fields r.2 c,
      List.mem_map_of_mem Prod.snd hfr, (update_self_matches c r.2 hs).1 hf⟩
  · split at h
    · next st1 heq =>
      obtain ⟨hf, hupd⟩ := guarded_eq_some heq
      obtain ⟨r, _, _, hfr⟩ := updateFirstPair_some_mem hupd
      cases h
      exact Or.inr (Or.inl ⟨hf, update_job_fields r.2 c,
        List.mem_map_of_mem Prod.snd hfr, (update_self_matches c r.2 hs).2.1 hf⟩)
    · obtain ⟨hf, hupd⟩ := guarded_eq_some h
      obtain ⟨r, _, _, hfr⟩ := updateFirstPair_some_mem hupd
      exact Or.inr (Or.inr ⟨hf, update_job_fields r.2 c,
        List.mem_map_of_mem Prod.snd hfr, (update_self_matches c r.2 hs).2.2 hf⟩)

/-- After one `save_jobs` iteration on a candidate with an identity field,
    the store the session will commit matches that candidate again. -/
theorem save_jobs_step_selfMatch (now : Int) (n : Nat)
    (rows : List (Job × Job)) (pending : List Job) (c : Candidate)
    (h : hasIdentity (normSource c) = true) :
    selfMatch (normSource c)
      (sessionView (save_jobs_step now (rows, pending, n) c)) := by
  have hs := normSource_src c
  simp only [save_jobs_step, h, if_true]
  cases e : upsert_candidate rows (normSource c) with
  | some st =>
    simp only [e, sessionView]
    exact selfMatch_mono (fun j hj => List.mem_append_left _ hj)
      (upsert_some_selfMatch hs e)
  | none =>
    simp only [e, sessionView]
    have hmem : jobOfCandidate (normSource c) now ∈
        rows.map Prod.snd ++ (pending ++ [jobOfCandidate (normSource c) now]) := by
      simp
    have hins := insert_self_matches (normSource c) now hs
    by_cases h1 : isFilled (normSource c).detail_url = true
    · exact Or.inl ⟨h1, _, hmem, hins.1 h1⟩
    by_cases h2 : isFilled (normSource c).apply_url = true
    · exact Or.inr (Or.inl ⟨h2, _, hmem, hins.2.1 h2⟩)
    by_cases h3 : isFilled (normSource c).url = true
    · exact Or.inr (Or.inr ⟨h3, _, hmem, hins.2.2 h3⟩)
    · exfalso
      have hb1 : isFilled (normSource c).detail_url = false := by simpa using h1
      have hb2 : isFilled (normSource c).apply_url = false := by simpa using h2
      have hb3 : isFilled (normSource c).url = false := by simpa using h3
      simp [hasIdentity, hb1, hb2, hb3] at h

/-- A `save_jobs` iteration on a candidate whose committed rows already
    match it cannot grow the committed store. -/
theorem save_jobs_step_length (now : Int) (n : Nat)
    (rows : List (Job × Job)) (pending : List Job) (c : Candidate)
    (h : selfMatchRows (normSource c) rows) :
    (sessionView (save_jobs_step now (rows, pending, n) c)).length
      = rows.length + pending.length := by
  by_cases hid : hasIdentity (normSource c) = true
  · simp only [save_jobs_step, hid, if_true]
    cases e : upsert_candidate rows (normSource c) with
    | some st => simp [e, sessionView, upsert_length e]
    | none => exact absurd h (upsert_none e)
  · simp [save_jobs_step, hid, sessionView]

/-- The committed record seeded for the C1 counterexample: identified by a
    detail url, an apply url and a legacy url at the same time. -/
def jC1 : Job :=
  { title := some "Seeded", detail_url := some "https://s/job/D",
    apply_url := some "https://s/apply/A", url := some "https://s/u/U",
    created_at := 0, updated_at := 0 }

/-- First candidate: matches `jC1` by detail url and rewrites its apply
    url. -/
def c1A : Candidate :=
  { title := some "Role", detail_url := some "https://s/job/D",
    apply_url := some "https://s/apply/A1" }

/-- Second candidate: matches `jC1` only through the legacy url and rewrites
    both of the other identity fields. -/
def c1B : Candidate :=
  { title := some "Role", detail_url := some "https://s/job/D2",
    apply_url := some "https://s/apply/A2", url := some "https://s/u/U" }

def c1Items : List Candidate := [c1A, c1B]

/-- C1 counterexample: both candidates merge into the single committed
    record, so run one ends with one record carrying the second candidate's
    identity values; on the identical second run the first candidate's
    lookups — evaluated, with `autoflush=False`, against those committed
    values — all miss, a new record is inserted, and the count grows from 1
    to 2. -/
theorem C1_counterexample :
    ¬ ((save_jobs (save_jobs [jC1] c1Items 0).1 c1Items 1).1.length
        = ((save_jobs [jC1] c1Items 0).1).length) := by
  decide

/-- C1 (amended): ingestion is idempotent on record count for a single
    candidate: for every committed store and candidate, a second `save_jobs`
    run with the same one-candidate list leaves the record count equal to
    the count after the first run.  (With several candidates sharing
    identity values with the same committed row in one batch, a later
    candidate can overwrite the identity fields an earlier one matched on,
    and the second run then inserts new records — see the counterexample.) -/
theorem C1_single_candidate_idempotent (store : List Job) (c : Candidate)
    (t1 t2 : Int) :
    ((save_jobs (save_jobs store [c] t1).1 [c] t2).1).length
      = ((save_jobs store [c] t1).1).length := by
  by_cases h : hasIdentity (normSource c) = true
  · have hsm : selfMatch (normSource c) (save_jobs store [c] t1).1 :=
      save_jobs_step_selfMatch t1 0 (store.map (fun j => (j, j))) [] c h
    have hrows := selfMatchRows_of_selfMatch hsm
    have hlen := save_jobs_step_length t2 0
      ((save_jobs store [c] t1).1.map (fun j => (j, j))) [] c hrows
    show (sessionView (save_jobs_step t2
        ((save_jobs store [c] t1).1.map (fun j => (j, j)), [], 0) c)).length
      = ((save_jobs store [c] t1).1).length
    rw [hlen]
    simp
  · have hb : hasIdentity (normSource c) = false := by simpa using h
    have hv : ∀ s : List Job, sessionView (s.map (fun j => (j, j)), [], 0) = s := by
      intro s
      show (s.map (fun j => (j, j))).map Prod.snd ++ [] = s
      rw [List.append_nil, map_pair_snd]
    simp [save_jobs, save_jobs_step, hb, hv]

/-! ## C9: canonical apply-URL derivation (`to_apply_url`)

`urllib.parse` is embedded far enough for `to_apply_url`: scheme / netloc /
path / params / query / fragment splitting as `urlparse` performs it, and
`parse_qs` with its default options (separator `&`, blank values dropped,
`+` and `%xx` unquoting — a decoded byte becomes the code point of the same
value, which is exact for the ASCII bytes these URLs carry). -/

/-- The characters allowed in a URL scheme. -/
def schemeChar (c : Char) : Bool :=
  c.isAlpha || c.isDigit || c == '+' || c == '-' || c == '.'

/-- C0 controls and the blank, stripped from both ends by `urlsplit`. -/
def isC0OrSpace (c : Char) : Bool := c.toNat ≤ 32

/-- `urlsplit`'s sanitizing: strip C0/space at both ends, drop every tab,
    CR and LF. -/
def removeUnsafeUrlChars (l : List Char) : List Char :=
  (((l.dropWhile isC0OrSpace).reverse.dropWhile isC0OrSpace).reverse).filter
    (fun c => !(c == '\t' || c == '\r' || c == '\n'))

def headIsAlpha : List Char → Bool
  | [] => false
  | c :: _ => c.isAlpha

/-- Scheme extraction: the text before the first `:`, accepted (lowercased)
    when non-empty, ASCII-letter-initial and made of scheme characters. -/
def splitScheme (l : List Char) : List Char × List Char :=
  let pre := l.takeWhile (fun c => c != ':')
  if pre.length < l.length ∧ pre ≠ [] ∧ headIsAlpha pre = true ∧
      pre.all schemeChar = true then
    (pre.map Char.toLower, l.drop (pre.length + 1))
  else ([], l)

/-- Netloc extraction: after a leading `//`, up to the next `/`, `?` or `#`. -/
def splitNetloc (l : List Char) : List Char × List Char :=
  match l with
  | '/' :: '/' :: rest =>
    (rest.takeWhile (fun c => !(c == '/' || c == '?' || c == '#')),
     rest.dropWhile (fun c => !(c == '/' || c == '?' || c == '#')))
  | _ => ([], l)

/-- `urlparse`'s params split: a `;` in the last path segment separates the
    params. -/
def splitPathParams (path : List Char) : List Char × List Char :=
  if path.contains ';' then
    if path.contains '/' then
      let segLen := (path.reverse.takeWhile (fun c => c != '/')).length
      let pre := path.take (path.length - segLen)
      let seg := path.drop (path.length - segLen)
      if seg.contains ';' then
        (pre ++ seg.takeWhile (fun c => c != ';'),
         (seg.dropWhile (fun c => c != ';')).drop 1)
      else (path, [])
    else
      (path.takeWhile (fun c => c != ';'),
       (path.dropWhile (fun c => c != ';')).drop 1)
  else (path, [])

structure UrlParts where
  scheme : String
  netloc : String
  path : String
  params : String
  query : String
  fragment : String
deriving DecidableEq, Repr

/-- `urllib.parse.urlparse`: scheme, netloc, then fragment after the first
    `#`, query after the first `?`, and params off the last path segment. -/
def urlparse (u : String) : UrlParts :=
  let l0 := removeUnsafeUrlChars u.data
  let p1 := splitScheme l0
  let p2 := splitNetloc p1.2
  let beforeFrag := p2.2.takeWhile (fun c => c != '#')
  let frag := (p2.2.dropWhile (fun c => c != '#')).drop 1
  let rawPath := beforeFrag.takeWhile (fun c => c != '?')
  let qry := (beforeFrag.dropWhile (fun c => c != '?')).drop 1
  let p3 := splitPathParams rawPath
  { scheme := ⟨p1.1⟩, netloc := ⟨p2.1⟩, path := ⟨p3.1⟩,
    params := ⟨p3.2⟩, query := ⟨qry⟩, fragment := ⟨frag⟩ }

def hexDigitVal (c : Char) : Option Nat :=
  if c.isDigit then some (c.toNat - 48)
  else if 'a' ≤ c ∧ c ≤ 'f' then some (c.toNat - 87)
  else if 'A' ≤ c ∧ c ≤ 'F' then some (c.toNat - 55)
  else none

/-- `str.split(sep)` on a character list. -/
def splitOnChar (sep : Char) : List Char → List (List Char)
  | [] => [[]]
  | c :: rest =>
    let r := splitOnChar sep rest
    if c = sep then [] :: r
    else
      match r with
      | [] => [[c]]
      | h :: t => (c :: h) :: t

/-- One piece of `unquote`'s `%`-split: decode the two leading hex digits
    into the byte's code point, or keep the piece verbatim behind the `%`. -/
def unquotePiece (piece : List Char) : List Char :=
  match piece with
  | a :: b :: rest =>
    match hexDigitVal a, hexDigitVal b with
    | some ha, some hb => Char.ofNat (16 * ha + hb) :: rest
    | _, _ => '%' :: piece
  | _ => '%' :: piece

/-- `unquote(s.replace('+', ' '))`: `+` becomes a blank, then the string is
    split on `%` and each later piece's two leading hex digits become the
    byte's code point (exact for the ASCII bytes these URLs carry);
    malformed escapes stay verbatim. -/
def unquotePlusChars (l : List Char) : List Char :=
  let lp := l.map (fun c => if c == '+' then ' ' else c)
  match splitOnChar '%' lp with
  | [] => []
  | first :: restBits => first ++ (restBits.map unquotePiece).flatten

/-- `parse_qsl` with the default options: `&`-separated pairs, pairs without
    `=` or with a blank value dropped, both parts unquoted. -/
def parse_qsl (q : String) : List (String × String) :=
  (splitOnChar '&' q.data).filterMap (fun seg =>
    if seg.isEmpty then none
    else if seg.contains '=' then
      let k := seg.takeWhile (fun c => c != '=')
      let v := (seg.dropWhile (fun c => c != '=')).drop 1
      if v.isEmpty then none
      else some (⟨unquotePlusChars k⟩, ⟨unquotePlusChars v⟩)
    else none)

/-- `parse_qs(q).get(key)` followed by `[0]`: the first value recorded for
    the key, i.e. the value of the key's first occurrence. -/
def getFirstParam (q key : String) : Option String :=
  ((parse_qsl q).find? (fun kv => kv.1 == key)).map Prod.snd

/-- Leftmost match of `/job/(\d+)`: the maximal digit run after the first
    `/job/` that is followed by at least one digit. -/
def searchJobPid : List Char → Option String
  | [] => none
  | c :: rest =>
    if ("/job/".data).isPrefixOf (c :: rest) then
      let ds := ((c :: rest).drop 5).takeWhile Char.isDigit
      if ds.isEmpty then searchJobPid rest else some ⟨ds⟩
    else searchJobPid rest

/-- Leftmost match of `pid=(\d+)` in the raw query string. -/
def searchPidEq : List Char → Option String
  | [] => none
  | c :: rest =>
    if ("pid=".data).isPrefixOf (c :: rest) then
      let ds := ((c :: rest).drop 4).takeWhile Char.isDigit
      if ds.isEmpty then searchPidEq rest else some ⟨ds⟩
    else searchPidEq rest

def BASE_HOST : String := "jobs.vodafone.com"

/-- `to_apply_url` from `app/services/scraper/vodafone.py`. -/
def to_apply_url (url : Option String)
    (default_domain : String := "vodafone.com") : Option String :=
  match url with
  | none => none
  | some u =>
    if u = "" then some u
    else
      let parsed := urlparse u
      let scheme := if parsed.scheme = "" then "https" else parsed.scheme
      let netloc := if parsed.netloc = "" then BASE_HOST else parsed.netloc
      let domain := (getFirstParam parsed.query "domain").getD default_domain
      if containsSub parsed.path.data "apply".data then
        match getFirstParam parsed.query "pid" with
        | some pid =>
          if pid ≠ "" then
            some (scheme ++ "://" ++ netloc ++ "/careers/apply?pid=" ++ pid ++
              "&domain=" ++ domain)
          else
            match searchPidEq parsed.query.data with
            | some ds =>
              some (scheme ++ "://" ++ netloc ++ "/careers/apply?pid=" ++ ds ++
                "&domain=" ++ domain)
            | none =>
              some (scheme ++ "://" ++ netloc ++ parsed.path ++ "?domain=" ++ domain)
        | none =>
          match searchPidEq parsed.query.data with
          | some ds =>
            some (scheme ++ "://" ++ netloc ++ "/careers/apply?pid=" ++ ds ++
              "&domain=" ++ domain)
          | none =>
            some (scheme ++ "://" ++ netloc ++ parsed.path ++ "?domain=" ++ domain)
      else
        match searchJobPid parsed.path.data with
        | some pid =>
          some (scheme ++ "://" ++ netloc ++ "/careers/apply?pid=" ++ pid ++
            "&domain=" ++ domain)
        | none => some u

/-- C9: apply-URL derivation.  Null input stays null.  A URL whose path
    holds `/job/<digits>` and no `apply` segment is rewritten to the fixed
    template `<scheme>://<host>/careers/apply?pid=<digits>&domain=<domain>`
    with the domain taken from the query string and defaulting to
    `vodafone.com`; a URL whose path holds an `apply` segment is rebuilt
    from its `pid` query parameter with the same domain defaulting; a URL
    with neither is returned unchanged. -/
theorem C9_to_apply_url (u : String) :
    to_apply_url none = none ∧
    (∀ pid, u ≠ "" →
      containsSub (urlparse u).path.data "apply".data = false →
      searchJobPid (urlparse u).path.data = some pid →
      to_apply_url (some u) =
        some ((if (urlparse u).scheme = "" then "https" else (urlparse u).scheme) ++
          "://" ++
          (if (urlparse u).netloc = "" then BASE_HOST else (urlparse u).netloc) ++
          "/careers/apply?pid=" ++ pid ++ "&domain=" ++
          ((getFirstParam (urlparse u).query "domain").getD "vodafone.com"))) ∧
    (∀ pv, u ≠ "" →
      containsSub (urlparse u).path.data "apply".data = true →
      getFirstParam (urlparse u).query "pid" = some pv → pv ≠ "" →
      to_apply_url (some u) =
        some ((if (urlparse u).scheme = "" then "https" else (urlparse u).scheme) ++
          "://" ++
          (if (urlparse u).netloc = "" then BASE_HOST else (urlparse u).netloc) ++
          "/careers/apply?pid=" ++ pv ++ "&domain=" ++
          ((getFirstParam (urlparse u).query "domain").getD "vodafone.com"))) ∧
    (u ≠ "" →
      containsSub (urlparse u).path.data "apply".data = false →
      searchJobPid (urlparse u).path.data = none →
      to_apply_url (some u) = some u) := by
  refine ⟨rfl, ?_, ?_, ?_⟩
  · intro pid hne hap hj
    simp [to_apply_url, hne, hap, hj]
  · intro pv hne hap hpv hpvne
    simp [to_apply_url, hne, hap, hpv, hpvne]
  · intro hne hap hj
    simp [to_apply_url, hne, hap, hj]

/-- A detail URL carrying a job id in its path. -/
def uJob : String := "https://jobs.vodafone.com/careers/job/563018687504927?lang=en"

/-- An apply URL carrying a pid and an explicit domain. -/
def uApply : String := "https://jobs.vodafone.com/careers/apply?pid=777&domain=voda.de"

/-- A URL with neither a job id nor an apply segment. -/
def uOther : String := "https://example.com/about"

theorem C9_to_apply_url_witness :
    to_apply_url (some uJob) =
      some "https://jobs.vodafone.com/careers/apply?pid=563018687504927&domain=vodafone.com" ∧
    to_apply_url (some uApply) =
      some "https://jobs.vodafone.com/careers/apply?pid=777&domain=voda.de" ∧
    to_apply_url (some uOther) = some uOther := by
  refine ⟨?_, ?_, ?_⟩
  · have h := (C9_to_apply_url uJob).2.1 "563018687504927" (by decide) (by decide)
      (by decide)
    rw [h]; decide
  · have h := (C9_to_apply_url uApply).2.2.1 "777" (by decide) (by decide)
      (by decide) (by decide)
    rw [h]; decide
  · exact (C9_to_apply_url uOther).2.2.2 (by decide) (by decide) (by decide)

end Auji
